import Mathlib

/-!
Verification of the BurnZip frontend's client-side encrypted sharing core.

The source (App.jsx variants) implements:
* `deriveKeyFromCode` : PBKDF2 (200000 iterations, SHA-256, 256-bit AES-GCM
  key) over the UTF-8 bytes of the 10-character code and a 16-byte salt;
* `encryptArrayBuffer` / `decryptArrayBuffer` : AES-GCM with a fresh 12-byte
  iv prepended to the ciphertext;
* `packageEncrypted` / `unpackageEncrypted` : the binary package layout
  `[salt(16) | filenameLen(1) | filename | encrypted(iv+cipher)]`;
* `u8ToBase64` / `base64ToU8` : base64 share-link fragment encoding;
* `handlePrepareAndGenerateLink` / `handleDownloadFromShare` : the sender and
  recipient flows, with the fixed 96 KiB embed threshold `MAX_EMBED_BYTES`.

Modelling conventions:
* Byte buffers (`Uint8Array`) are `List Nat`, each element intended `< 256`.
* The platform primitives `window.crypto.subtle` (PBKDF2, AES-GCM) and the
  random source are not part of the repository; following the spec's design
  note they are injected as explicit function parameters (`pbkdf2`, `enc`,
  `dec`, and explicit `salt` / `iv` arguments).  The spec's laws for them
  (AEAD correctness, fail-closed authentication) appear as hypotheses of the
  theorems that need them.
* `TextEncoder.encode` is modelled by `utf8Encode`; `TextDecoder.decode` is
  the identity on the byte sequence (filenames are compared by their UTF-8
  bytes, on which encode/decode are mutually inverse).
-/

/-- UTF-8 encoding of one Unicode scalar value, as `TextEncoder` produces it. -/
def utf8EncodeChar (c : Char) : List Nat :=
  let n := c.toNat
  if n < 128 then [n]
  else if n < 2048 then [192 + n / 64, 128 + n % 64]
  else if n < 65536 then [224 + n / 4096, 128 + n / 64 % 64, 128 + n % 64]
  else [240 + n / 262144, 128 + n / 4096 % 64, 128 + n / 64 % 64, 128 + n % 64]

/-- Model of `new TextEncoder().encode(s)`: the UTF-8 bytes of `s`. -/
def utf8Encode (s : String) : List Nat :=
  (s.data.map utf8EncodeChar).flatten

/-- Model of `target.set(src, offset)` on a `Uint8Array`, in the in-bounds
case `offset + src.length ≤ target.length` (JS throws a RangeError otherwise;
no call in the source reaches that case for the inputs considered here). -/
def setBytes {α : Type} (target : List α) (src : List α) (offset : Nat) : List α :=
  target.take offset ++ src ++ target.drop (offset + src.length)

/-- The PBKDF2 parameter record passed to `window.crypto.subtle.deriveKey`
in the source: iteration count, hash name, and derived-key length in bits. -/
structure Pbkdf2Params where
  iterations : Nat
  hash : String
  keyBits : Nat
deriving DecidableEq

/-- The concrete parameters the source passes: 200000 iterations, SHA-256,
a 256-bit AES-GCM key. -/
def deriveParams : Pbkdf2Params :=
  ⟨200000, "SHA-256", 256⟩

/-- Model of `deriveKeyFromCode(code, salt)`.  The platform PBKDF2
implementation behind `window.crypto.subtle.deriveKey` is not repository
code; it is injected as the abstract deterministic function `pbkdf2`.  The
source's contribution is to apply it to the fixed `deriveParams`, the UTF-8
bytes of the code (`enc.encode(code)`), and the salt. -/
def deriveKeyFromCode {K : Type} (pbkdf2 : Pbkdf2Params → List Nat → List Nat → K)
    (code : String) (salt : List Nat) : K :=
  pbkdf2 deriveParams (utf8Encode code) salt

/-- Model of `encryptArrayBuffer(key, plaintextBuffer)`: the AES-GCM
primitive `window.crypto.subtle.encrypt` is injected as `enc`, and the fresh
random 12-byte iv from `crypto.getRandomValues` is injected as the explicit
argument `iv`.  The source allocates `out`, writes the iv at offset 0 and the
ciphertext at offset `iv.length`. -/
def encryptArrayBuffer {K : Type} (enc : K → List Nat → List Nat → List Nat)
    (key : K) (iv : List Nat) (plaintextBuffer : List Nat) : List Nat :=
  let cipherBuf := enc key iv plaintextBuffer
  let out : List Nat := List.replicate (iv.length + cipherBuf.length) 0
  setBytes (setBytes out iv 0) cipherBuf iv.length

/-- Model of `decryptArrayBuffer(key, combinedCipher)`: splits off the first
12 bytes as iv (`combinedCipher.slice(0, 12)` / `.slice(12)`) and calls the
injected AES-GCM decryption `dec`, which returns `none` when platform
decryption throws (authentication failure). -/
def decryptArrayBuffer {K : Type} (dec : K → List Nat → List Nat → Option (List Nat))
    (key : K) (combinedCipher : List Nat) : Option (List Nat) :=
  dec key (combinedCipher.take 12) (combinedCipher.drop 12)

/-- Model of `packageEncrypted(salt, filename, encryptedU8)`: allocates a
zero buffer of length `16 + 1 + filenameBytes.length + encryptedU8.length`,
writes the salt at 0, `filenameBytes.length & 0xff` at index 16, the filename
bytes at 17 and the encrypted blob after them. -/
def packageEncrypted (salt : List Nat) (filename : String) (encryptedU8 : List Nat) : List Nat :=
  let filenameBytes := utf8Encode filename
  let headerLen := 16 + 1 + filenameBytes.length
  let out : List Nat := List.replicate (headerLen + encryptedU8.length) 0
  setBytes (setBytes ((setBytes out salt 0).set 16 (filenameBytes.length % 256))
    filenameBytes 17) encryptedU8 headerLen

/-- Model of `unpackageEncrypted(u8)`.  JS semantics: `u8[16]` on a buffer of
length at most 16 is `undefined`; then `17 + undefined` is `NaN`, and
`Uint8Array.slice` converts `NaN` bounds to 0, so `u8.slice(17, NaN)` is
empty and `u8.slice(NaN)` is `u8.slice(0)`, a copy of the whole buffer.
All slices clamp to the buffer length; the function never throws.  The
filename is kept as its byte sequence (`TextDecoder().decode` applied in the
source is the inverse of the encoding). -/
def unpackageEncrypted (u8 : List Nat) : List Nat × List Nat × List Nat :=
  match u8.get? 16 with
  | some filenameLen =>
      (u8.take 16, (u8.drop 17).take filenameLen, u8.drop (17 + filenameLen))
  | none =>
      (u8.take 16, [], u8)

/-- The fixed embed threshold from the source: `96 * 1024` bytes. -/
def MAX_EMBED_BYTES : Nat := 96 * 1024

/-- Transport decision outcome of the size check (spec section 4.4). -/
inductive Transport where
  | Embed : Transport
  | TooLarge : Transport
deriving DecidableEq

/-- The transport selection performed by the sender flow at
`if (packaged.length > MAX_EMBED_BYTES)`: strictly larger than the threshold
is rejected, anything at or below it is embedded. -/
def decideTransport (packageSize : Nat) : Transport :=
  if MAX_EMBED_BYTES < packageSize then Transport.TooLarge else Transport.Embed

/-- Base64 alphabet used by `btoa` / `atob`. -/
def b64Alphabet : List Char :=
  ("ABCDEFGHIJKLMNOPQRSTUVWXYZabcdefghijklmnopqrstuvwxyz0123456789+/").data

/-- Character for one 6-bit group (defined for inputs below 64). -/
def b64EncChar (n : Nat) : Char :=
  b64Alphabet.getD n ('A')

/-- Base64 character stream of a byte list, grouped three bytes at a time,
with `=` padding, exactly as `btoa` emits it. -/
def u8ToBase64Chars : List Nat → List Char
  | [] => []
  | [a] => [b64EncChar (a / 4), b64EncChar (a % 4 * 16), '=', '=']
  | [a, b] => [b64EncChar (a / 4), b64EncChar (a % 4 * 16 + b / 16),
      b64EncChar (b % 16 * 4), '=']
  | a :: b :: c :: rest =>
      b64EncChar (a / 4) :: b64EncChar (a % 4 * 16 + b / 16) ::
        b64EncChar (b % 16 * 4 + c / 64) :: b64EncChar (c % 64) :: u8ToBase64Chars rest

/-- Model of `u8ToBase64(u8)`: the source turns the bytes into a binary
string chunk by chunk (`String.fromCharCode`) and applies `btoa`; the net
effect is standard base64 of the byte sequence. -/
def u8ToBase64 (u8 : List Nat) : String :=
  String.mk (u8ToBase64Chars u8)

/-- ASCII whitespace, which the forgiving-base64 decode behind `atob`
strips before validating. -/
def isAsciiWhitespace (c : Char) : Bool :=
  c.toNat = 9 || c.toNat = 10 || c.toNat = 12 || c.toNat = 13 || c.toNat = 32

/-- Value of one base64 alphabet character; `none` for characters outside
the alphabet (on which `atob` throws). -/
def b64CharVal (c : Char) : Option Nat :=
  let n := c.toNat
  if 65 ≤ n ∧ n ≤ 90 then some (n - 65)
  else if 97 ≤ n ∧ n ≤ 122 then some (n - 97 + 26)
  else if 48 ≤ n ∧ n ≤ 57 then some (n - 48 + 52)
  else if n = 43 then some 62
  else if n = 47 then some 63
  else none

/-- Strips at most two trailing `=` padding characters, as the
forgiving-base64 algorithm does when the length is a multiple of four. -/
def stripB64Padding (l : List Char) : List Char :=
  if l.getLast? = some '=' then
    let l1 := l.dropLast
    if l1.getLast? = some '=' then l1.dropLast else l1
  else l

/-- Maps every character to its 6-bit value, failing on the first character
outside the base64 alphabet. -/
def b64Vals : List Char → Option (List Nat)
  | [] => some []
  | c :: r =>
      match b64CharVal c, b64Vals r with
      | some v, some t => some (v :: t)
      | _, _ => none

/-- Reassembles bytes from 6-bit groups: full quads give three bytes, a
final pair or triple gives one or two bytes (excess bits discarded), and a
single leftover character is invalid. -/
def b64DecodeQuads : List Nat → Option (List Nat)
  | [] => some []
  | [_] => none
  | [a, b] => some [a * 4 + b / 16]
  | [a, b, c] => some [a * 4 + b / 16, b % 16 * 16 + c / 4]
  | a :: b :: c :: d :: rest =>
      match b64DecodeQuads rest with
      | some t => some ((a * 4 + b / 16) :: (b % 16 * 16 + c / 4) :: (c % 4 * 64 + d) :: t)
      | none => none

/-- Model of `base64ToU8(b64)`: `atob` runs the forgiving-base64 decode
(strip ASCII whitespace, strip up to two `=` when the length is a multiple
of four, reject a remainder of one or any character outside the alphabet),
then the source copies the char codes into a `Uint8Array`.  `none` models
`atob` throwing. -/
def base64ToU8 (b64 : String) : Option (List Nat) :=
  let data := b64.data.filter (fun c => !(isAsciiWhitespace c))
  let data := if data.length % 4 = 0 then stripB64Padding data else data
  if data.length % 4 = 1 then none
  else
    match b64Vals data with
    | some vals => b64DecodeQuads vals
    | none => none

/-- The constant recipient-side failure message shown by the catch branch of
`handleDownloadFromShare`, whatever made decryption fail. -/
def decryptFailedMsg : String :=
  "Decryption failed. Check the code and try again."

/-- Outcome of the sender flow `handlePrepareAndGenerateLink`. -/
inductive PrepareResult where
  | invalidCode : PrepareResult
  | tooLarge : PrepareResult
  | embedReady : String → Nat → PrepareResult
deriving DecidableEq

/-- Outcome of the recipient flow `handleDownloadFromShare`. -/
inductive DownloadResult where
  | needCode : DownloadResult
  | failure : String → DownloadResult
  | ready : List Nat → List Nat → DownloadResult
deriving DecidableEq

/-- Model of `handlePrepareAndGenerateLink`: validates the 10-character
code, derives the key, encrypts, packages, and either rejects the package as
too large (`packaged.length > MAX_EMBED_BYTES`, here via `decideTransport`)
or builds the share URL
`origin + pathname + "#share:" + u8ToBase64(packaged)`.  The random salt and
iv, the plaintext/filename selection, and the platform crypto are injected
as arguments. -/
def handlePrepareAndGenerateLink {K : Type} (enc : K → List Nat → List Nat → List Nat)
    (pbkdf2 : Pbkdf2Params → List Nat → List Nat → K)
    (code : String) (salt iv : List Nat) (filename : String) (plaintextU8 : List Nat)
    (origin pathname : String) : PrepareResult :=
  if code.length ≠ 10 then PrepareResult.invalidCode
  else
    let key := deriveKeyFromCode pbkdf2 code salt
    let encryptedU8 := encryptArrayBuffer enc key iv plaintextU8
    let packaged := packageEncrypted salt filename encryptedU8
    match decideTransport packaged.length with
    | Transport.TooLarge => PrepareResult.tooLarge
    | Transport.Embed =>
        PrepareResult.embedReady
          (origin ++ pathname ++ ("#share:") ++ u8ToBase64 packaged) packaged.length

/-- Model of `handleDownloadFromShare(u8Payload)`: unpackages the payload,
requires a 10-character code, derives the key from the entered code and the
unpacked salt, and decrypts.  A decryption failure lands in the catch branch,
which shows the single constant `decryptFailedMsg`; success yields the
filename bytes and the full plaintext. -/
def handleDownloadFromShare {K : Type} (dec : K → List Nat → List Nat → Option (List Nat))
    (pbkdf2 : Pbkdf2Params → List Nat → List Nat → K)
    (incomingCode : String) (u8Payload : List Nat) : DownloadResult :=
  let unpacked := unpackageEncrypted u8Payload
  if incomingCode.length ≠ 10 then DownloadResult.needCode
  else
    match decryptArrayBuffer dec (deriveKeyFromCode pbkdf2 incomingCode unpacked.1)
        unpacked.2.2 with
    | some decrypted => DownloadResult.ready unpacked.2.1 decrypted
    | none => DownloadResult.failure decryptFailedMsg

/-- Model of the fragment detection in the app-load `useEffect`: a fragment
is treated as a payload only when it starts with the literal `#share:`
(`frag.startsWith("#share:")`, modelled as a prefix test on the character
sequence, which agrees with the JS code-unit test for this ASCII marker);
the base64 after the marker (`frag.slice(7)`) must be nonempty and decode
(otherwise `atob` throws and the share is ignored with a warning). -/
def detectShareFragment (frag : String) : Option (List Nat) :=
  if ("#share:").data.isPrefixOf frag.data then
    let payloadB64 := String.mk (frag.data.drop 7)
    if 0 < payloadB64.length then base64ToU8 payloadB64 else none
  else none

/-! ### Concrete instantiations of the injected platform primitives

These toy instances stand in for `window.crypto.subtle` in the witness
theorems: a key is the pair (code bytes, salt), encryption appends a 16-byte
tag, and decryption succeeds exactly for the one key `toyKeyA`. -/

def toyPbkdf2 (_p : Pbkdf2Params) (codeBytes salt : List Nat) : List Nat × List Nat :=
  (codeBytes, salt)

def toySalt : List Nat := List.replicate 16 0

def toyIv : List Nat := List.replicate 12 0

def toyKeyA : List Nat × List Nat :=
  toyPbkdf2 deriveParams (utf8Encode ("AAAAAAAAAA")) toySalt

def toyEnc (_k : List Nat × List Nat) (_iv m : List Nat) : List Nat :=
  m ++ List.replicate 16 0

def toyDec (k : List Nat × List Nat) (_iv c : List Nat) : Option (List Nat) :=
  if k = toyKeyA then some (c.take (c.length - 16)) else none

/-- A 256-character filename whose UTF-8 encoding has 256 bytes, used to
exercise the one-byte filename-length field past its cap. -/
def fn256 : String := String.mk (List.replicate 256 'a')

/-! ### List helper lemmas used to normalize the byte-buffer writes -/

theorem take_len_add_append {α : Type} (l₁ l₂ : List α) (k : Nat) :
    (l₁ ++ l₂).take (l₁.length + k) = l₁ ++ l₂.take k := by
  induction l₁ with
  | nil => simp
  | cons a t ih =>
      simp only [List.cons_append, List.length_cons]
      rw [show t.length + 1 + k = (t.length + k) + 1 from by omega]
      simp [List.take_succ_cons, ih]

theorem drop_len_add_append {α : Type} (l₁ l₂ : List α) (k : Nat) :
    (l₁ ++ l₂).drop (l₁.length + k) = l₂.drop k := by
  induction l₁ with
  | nil => simp
  | cons a t ih =>
      simp only [List.cons_append, List.length_cons]
      rw [show t.length + 1 + k = (t.length + k) + 1 from by omega]
      simp [List.drop_succ_cons, ih]

theorem get_len_append {α : Type} (l₁ : List α) (x : α) (r : List α) :
    (l₁ ++ x :: r).get? l₁.length = some x := by
  induction l₁ with
  | nil => rfl
  | cons a t ih => simpa using ih

theorem set_len_append {α : Type} (l₁ : List α) (x v : α) (r : List α) :
    (l₁ ++ x :: r).set l₁.length v = l₁ ++ v :: r := by
  induction l₁ with
  | nil => rfl
  | cons a t ih => simp [ih]

theorem drop_replicate_eq {α : Type} (x : α) (n k : Nat) :
    (List.replicate n x).drop k = List.replicate (n - k) x := by
  induction k generalizing n with
  | zero => rfl
  | succ k ih =>
      cases n with
      | zero => simp
      | succ m => simp [ih m]

theorem take_append_le {α : Type} (l₁ l₂ : List α) (k : Nat) (h : k ≤ l₁.length) :
    (l₁ ++ l₂).take k = l₁.take k := by
  induction l₁ generalizing k with
  | nil =>
      have hk : k = 0 := by simpa using h
      simp [hk]
  | cons a t ih =>
      cases k with
      | zero => rfl
      | succ k => simp [List.take_succ_cons, ih k (by simpa using h)]

theorem drop_append_le {α : Type} (l₁ l₂ : List α) (k : Nat) (h : k ≤ l₁.length) :
    (l₁ ++ l₂).drop k = l₁.drop k ++ l₂ := by
  induction l₁ generalizing k with
  | nil =>
      have hk : k = 0 := by simpa using h
      simp [hk]
  | cons a t ih =>
      cases k with
      | zero => rfl
      | succ k => simp [List.drop_succ_cons, ih k (by simpa using h)]

/-! ### Normal forms of the buffer-writing functions -/

theorem setBytes_replicate_zero {α : Type} (src : List α) (x : α) (n : Nat) :
    setBytes (List.replicate n x) src 0 = src ++ List.replicate (n - src.length) x := by
  unfold setBytes
  simp [drop_replicate_eq]

theorem setBytes_append_left {α : Type} (pre src rest : List α) :
    setBytes (pre ++ rest) src pre.length = pre ++ (src ++ rest.drop src.length) := by
  unfold setBytes
  rw [List.take_left, drop_len_add_append, List.append_assoc]

theorem encryptArrayBuffer_eq {K : Type} (enc : K → List Nat → List Nat → List Nat)
    (key : K) (iv m : List Nat) :
    encryptArrayBuffer enc key iv m = iv ++ enc key iv m := by
  unfold encryptArrayBuffer
  dsimp only
  rw [setBytes_replicate_zero]
  rw [show iv.length + (enc key iv m).length - iv.length = (enc key iv m).length
    from by omega]
  rw [setBytes_append_left]
  simp [drop_replicate_eq]

theorem packageEncrypted_eq (salt : List Nat) (filename : String) (e : List Nat)
    (h : salt.length = 16) :
    packageEncrypted salt filename e =
      salt ++ ((utf8Encode filename).length % 256) :: (utf8Encode filename ++ e) := by
  unfold packageEncrypted
  dsimp only
  rw [setBytes_replicate_zero]
  rw [show 16 + 1 + (utf8Encode filename).length + e.length - salt.length
      = ((utf8Encode filename).length + e.length) + 1 from by omega]
  rw [List.replicate_succ]
  have hset : ∀ (v : Nat) (rest : List Nat), (salt ++ 0 :: rest).set 16 v = salt ++ v :: rest := by
    intro v rest
    rw [← h]
    exact set_len_append salt 0 v rest
  rw [hset]
  rw [show salt ++ ((utf8Encode filename).length % 256) ::
       List.replicate ((utf8Encode filename).length + e.length) 0
      = (salt ++ [(utf8Encode filename).length % 256]) ++
       List.replicate ((utf8Encode filename).length + e.length) 0 from by simp]
  rw [show (17 : Nat) = (salt ++ [(utf8Encode filename).length % 256]).length
      from by simp [h]]
  rw [setBytes_append_left]
  rw [drop_replicate_eq]
  rw [show (utf8Encode filename).length + e.length - (utf8Encode filename).length
      = e.length from by omega]
  rw [show (salt ++ [(utf8Encode filename).length % 256]) ++
        (utf8Encode filename ++ List.replicate e.length 0)
      = ((salt ++ [(utf8Encode filename).length % 256]) ++ utf8Encode filename) ++
        List.replicate e.length 0 from by simp]
  rw [show 16 + 1 + (utf8Encode filename).length
      = ((salt ++ [(utf8Encode filename).length % 256]) ++ utf8Encode filename).length
      from by simp [h]; omega]
  rw [setBytes_append_left]
  rw [drop_replicate_eq, Nat.sub_self]
  simp

theorem unpackageEncrypted_salt_cons (salt : List Nat) (L : Nat) (rest : List Nat)
    (h : salt.length = 16) :
    unpackageEncrypted (salt ++ L :: rest) = (salt, rest.take L, rest.drop L) := by
  unfold unpackageEncrypted
  have hget : (salt ++ L :: rest).get? 16 = some L := by
    rw [← h]
    exact get_len_append salt L rest
  rw [hget]
  dsimp only
  have h1 : (salt ++ L :: rest).take 16 = salt := by
    rw [← h]
    exact List.take_left salt (L :: rest)
  have h2 : (salt ++ L :: rest).drop 17 = rest := by
    rw [show salt ++ L :: rest = (salt ++ [L]) ++ rest from by simp]
    rw [show (17 : Nat) = (salt ++ [L]).length from by simp [h]]
    exact List.drop_left (salt ++ [L]) rest
  have h3 : (salt ++ L :: rest).drop (17 + L) = rest.drop L := by
    rw [show salt ++ L :: rest = (salt ++ [L]) ++ rest from by simp]
    rw [show 17 + L = (salt ++ [L]).length + L from by simp [h]]
    exact drop_len_add_append (salt ++ [L]) rest L
  rw [h1, h2, h3]

theorem decryptArrayBuffer_append {K : Type} (dec : K → List Nat → List Nat → Option (List Nat))
    (key : K) (iv ct : List Nat) (h : iv.length = 12) :
    decryptArrayBuffer dec key (iv ++ ct) = dec key iv ct := by
  unfold decryptArrayBuffer
  rw [show (12 : Nat) = iv.length from h.symm, List.take_left, List.drop_left]

/-- Unpacking a package built from a 16-byte salt and a filename of at most
255 UTF-8 bytes recovers its three fields.  Shared helper for the round-trip
and wrong-secret theorems. -/
theorem unpack_package_eq (salt : List Nat) (filename : String) (e : List Nat)
    (hsalt : salt.length = 16) (hfn : (utf8Encode filename).length ≤ 255) :
    unpackageEncrypted (packageEncrypted salt filename e) =
      (salt, utf8Encode filename, e) := by
  have hmod : (utf8Encode filename).length % 256 = (utf8Encode filename).length :=
    Nat.mod_eq_of_lt (by omega)
  rw [packageEncrypted_eq _ _ _ hsalt, hmod,
    unpackageEncrypted_salt_cons _ _ _ hsalt,
    List.take_left, List.drop_left]

/-- Claim C1: for every secret of length 10, every 16-byte salt, every
filename whose UTF-8 encoding is at most 255 bytes, and every plaintext
(including the empty one), unpacking the package built by
`pack(salt, filename, encrypt(derive(secret, salt), plaintext))` recovers
exactly the salt, the filename (as its UTF-8 bytes) and the encrypted blob,
and decrypting that blob with `derive(secret, salt)` recovers exactly the
original plaintext.  The AEAD correctness of the platform AES-GCM is the
hypothesis `hdec`. -/
theorem round_trip_pack_encrypt {K : Type}
    (enc : K → List Nat → List Nat → List Nat)
    (dec : K → List Nat → List Nat → Option (List Nat))
    (pbkdf2 : Pbkdf2Params → List Nat → List Nat → K)
    (code : String) (salt iv : List Nat) (filename : String) (plaintext : List Nat)
    (_hcode : code.length = 10) (hsalt : salt.length = 16)
    (hfn : (utf8Encode filename).length ≤ 255) (hiv : iv.length = 12)
    (hdec : dec (deriveKeyFromCode pbkdf2 code salt) iv
      (enc (deriveKeyFromCode pbkdf2 code salt) iv plaintext) = some plaintext) :
    unpackageEncrypted (packageEncrypted salt filename
        (encryptArrayBuffer enc (deriveKeyFromCode pbkdf2 code salt) iv plaintext)) =
      (salt, utf8Encode filename,
        encryptArrayBuffer enc (deriveKeyFromCode pbkdf2 code salt) iv plaintext) ∧
    decryptArrayBuffer dec (deriveKeyFromCode pbkdf2 code salt)
      (encryptArrayBuffer enc (deriveKeyFromCode pbkdf2 code salt) iv plaintext) =
      some plaintext := by
  constructor
  · exact unpack_package_eq salt filename _ hsalt hfn
  · rw [encryptArrayBuffer_eq, decryptArrayBuffer_append _ _ _ _ hiv]
    exact hdec

/-- Witness for C1 at a concrete instance: secret `AAAAAAAAAA`, the all-zero
salt and iv, filename `message.txt`, plaintext `[104, 105]`, with the toy
platform primitives. -/
theorem round_trip_pack_encrypt_witness :
    ("AAAAAAAAAA").length = 10 ∧ toySalt.length = 16 ∧
    (utf8Encode ("message.txt")).length ≤ 255 ∧ toyIv.length = 12 ∧
    toyDec (deriveKeyFromCode toyPbkdf2 ("AAAAAAAAAA") toySalt) toyIv
      (toyEnc (deriveKeyFromCode toyPbkdf2 ("AAAAAAAAAA") toySalt) toyIv [104, 105]) =
      some [104, 105] ∧
    (unpackageEncrypted (packageEncrypted toySalt ("message.txt")
        (encryptArrayBuffer toyEnc (deriveKeyFromCode toyPbkdf2 ("AAAAAAAAAA") toySalt)
          toyIv [104, 105])) =
      (toySalt, utf8Encode ("message.txt"),
        encryptArrayBuffer toyEnc (deriveKeyFromCode toyPbkdf2 ("AAAAAAAAAA") toySalt)
          toyIv [104, 105]) ∧
    decryptArrayBuffer toyDec (deriveKeyFromCode toyPbkdf2 ("AAAAAAAAAA") toySalt)
      (encryptArrayBuffer toyEnc (deriveKeyFromCode toyPbkdf2 ("AAAAAAAAAA") toySalt)
        toyIv [104, 105]) = some [104, 105]) :=
  ⟨by decide, by decide, by decide, by decide, by decide,
   round_trip_pack_encrypt toyEnc toyDec toyPbkdf2 ("AAAAAAAAAA") toySalt toyIv
     ("message.txt") [104, 105] (by decide) (by decide) (by decide) (by decide) (by decide)⟩

/-- Claim C2: the spec requires `unpack` to reject buffers shorter than the
17-byte header, or shorter than `17 + N`, with a `FormatError`.  The code has
no error path at all: evaluated at an empty buffer, a 1-byte buffer, and a
17-byte buffer whose stored filename length 5 exceeds the remaining space,
`unpackageEncrypted` still returns a `(salt, filename, encrypted)` triple. -/
theorem unpackageEncrypted_short_returns_triple :
    unpackageEncrypted [] = ([], [], []) ∧
    unpackageEncrypted [0] = ([0], [], [0]) ∧
    unpackageEncrypted (List.replicate 16 0 ++ [5]) = (List.replicate 16 0, [], []) := by
  decide

/-- Claim C10, counterexample: on the 3-byte buffer `[1, 2, 3]` the
`encrypted` component is the whole buffer, not empty — `u8[16]` is undefined,
so `17 + undefined` is `NaN` and `u8.slice(NaN)` is `u8.slice(0)`. -/
theorem unpackageEncrypted_short_encrypted_whole_buffer :
    unpackageEncrypted [1, 2, 3] = ([1, 2, 3], [], [1, 2, 3]) ∧
    (unpackageEncrypted [1, 2, 3]).2.2 ≠ [] := by
  decide

/-- Claim C10 (amended): `unpackageEncrypted` is total, and on every buffer
shorter than the 17-byte header it returns the clamped (at most 16-byte)
salt, an empty filename, and the entire input buffer as the encrypted
component — not an empty blob. -/
theorem unpackageEncrypted_short (u8 : List Nat) (h : u8.length < 17) :
    unpackageEncrypted u8 = (u8.take 16, [], u8) := by
  unfold unpackageEncrypted
  have hnone : u8.get? 16 = none := List.get?_eq_none.mpr (by omega)
  rw [hnone]

/-- Witness for the amended C10 at the concrete buffer `[5, 6]`. -/
theorem unpackageEncrypted_short_witness :
    ([5, 6] : List Nat).length < 17 ∧ unpackageEncrypted [5, 6] = ([5, 6], [], [5, 6]) :=
  ⟨by decide, unpackageEncrypted_short [5, 6] (by decide)⟩

/-- When the entered code has length 10 and decryption of the unpacked blob
fails, the recipient flow lands in the catch branch with the constant
message.  Shared helper for the fail-closed and wrong-secret theorems. -/
theorem handleDownloadFromShare_fail {K : Type}
    (dec : K → List Nat → List Nat → Option (List Nat))
    (pbkdf2 : Pbkdf2Params → List Nat → List Nat → K)
    (incomingCode : String) (payload : List Nat)
    (hcode : incomingCode.length = 10)
    (hfail : decryptArrayBuffer dec
      (deriveKeyFromCode pbkdf2 incomingCode (unpackageEncrypted payload).1)
      (unpackageEncrypted payload).2.2 = none) :
    handleDownloadFromShare dec pbkdf2 incomingCode payload =
      DownloadResult.failure decryptFailedMsg := by
  unfold handleDownloadFromShare
  dsimp only
  rw [if_neg (fun hne => hne hcode), hfail]

/-- Claim C3: whenever the platform AEAD rejects its input — a wrong key,
corrupted bytes and truncation are all the same `none` outcome of
`decryptArrayBuffer`, which never yields partial plaintext — the recipient
flow produces the single generic failure carrying the one constant message
`decryptFailedMsg`, and never a `ready` result; the message is the same
whatever made decryption fail, so it distinguishes nothing. -/
theorem decrypt_fail_closed {K : Type}
    (dec : K → List Nat → List Nat → Option (List Nat))
    (pbkdf2 : Pbkdf2Params → List Nat → List Nat → K)
    (incomingCode : String) (payload : List Nat)
    (hcode : incomingCode.length = 10)
    (hfail : decryptArrayBuffer dec
      (deriveKeyFromCode pbkdf2 incomingCode (unpackageEncrypted payload).1)
      (unpackageEncrypted payload).2.2 = none) :
    handleDownloadFromShare dec pbkdf2 incomingCode payload =
      DownloadResult.failure decryptFailedMsg ∧
    (∀ fn m, handleDownloadFromShare dec pbkdf2 incomingCode payload ≠
      DownloadResult.ready fn m) ∧
    (∀ msg, handleDownloadFromShare dec pbkdf2 incomingCode payload =
      DownloadResult.failure msg → msg = decryptFailedMsg) := by
  have hres := handleDownloadFromShare_fail dec pbkdf2 incomingCode payload hcode hfail
  refine ⟨hres, ?_, ?_⟩
  · intro fn m
    rw [hres]
    simp
  · intro msg hmsg
    rw [hres] at hmsg
    exact (DownloadResult.failure.injEq _ _).mp hmsg.symm

/-- Witness for C3: code `CCCCCCCCCC` with the empty payload; the toy
decryption rejects every key other than `toyKeyA`, so the flow fails with
the constant message. -/
theorem decrypt_fail_closed_witness :
    ("CCCCCCCCCC").length = 10 ∧
    decryptArrayBuffer toyDec
      (deriveKeyFromCode toyPbkdf2 ("CCCCCCCCCC") (unpackageEncrypted []).1)
      (unpackageEncrypted []).2.2 = none ∧
    handleDownloadFromShare toyDec toyPbkdf2 ("CCCCCCCCCC") [] =
      DownloadResult.failure decryptFailedMsg ∧
    handleDownloadFromShare toyDec toyPbkdf2 ("CCCCCCCCCC") [] ≠
      DownloadResult.ready [] [] :=
  ⟨by decide, by decide,
    (decrypt_fail_closed toyDec toyPbkdf2 ("CCCCCCCCCC") [] (by decide) (by decide)).1,
    (decrypt_fail_closed toyDec toyPbkdf2 ("CCCCCCCCCC") [] (by decide) (by decide)).2.1 [] []⟩

/-- Claim C4: a package produced under 10-character secret A, decrypted with
the key derived (same salt) from a distinct 10-character secret B, always
fails: `decryptArrayBuffer` yields `none` (never plaintext) and the
recipient flow yields the generic failure.  The fail-closed authentication
of the platform AES-GCM (`hauth`) and collision-freeness of the platform
PBKDF2 on these two secrets (`hkeys`) are the spec-modelled hypotheses. -/
theorem wrong_secret_rejected {K : Type}
    (enc : K → List Nat → List Nat → List Nat)
    (dec : K → List Nat → List Nat → Option (List Nat))
    (pbkdf2 : Pbkdf2Params → List Nat → List Nat → K)
    (codeA codeB : String) (salt iv : List Nat) (filename : String) (plaintext : List Nat)
    (_hA : codeA.length = 10) (hB : codeB.length = 10) (_hAB : codeA ≠ codeB)
    (hsalt : salt.length = 16) (hfn : (utf8Encode filename).length ≤ 255)
    (hiv : iv.length = 12)
    (hkeys : deriveKeyFromCode pbkdf2 codeB salt ≠ deriveKeyFromCode pbkdf2 codeA salt)
    (hauth : ∀ k : K, k ≠ deriveKeyFromCode pbkdf2 codeA salt →
      dec k iv (enc (deriveKeyFromCode pbkdf2 codeA salt) iv plaintext) = none) :
    decryptArrayBuffer dec (deriveKeyFromCode pbkdf2 codeB salt)
      (encryptArrayBuffer enc (deriveKeyFromCode pbkdf2 codeA salt) iv plaintext) = none ∧
    handleDownloadFromShare dec pbkdf2 codeB
      (packageEncrypted salt filename
        (encryptArrayBuffer enc (deriveKeyFromCode pbkdf2 codeA salt) iv plaintext)) =
      DownloadResult.failure decryptFailedMsg := by
  have hdecB : decryptArrayBuffer dec (deriveKeyFromCode pbkdf2 codeB salt)
      (encryptArrayBuffer enc (deriveKeyFromCode pbkdf2 codeA salt) iv plaintext) = none := by
    rw [encryptArrayBuffer_eq, decryptArrayBuffer_append _ _ _ _ hiv]
    exact hauth _ hkeys
  refine ⟨hdecB, ?_⟩
  apply handleDownloadFromShare_fail dec pbkdf2 codeB _ hB
  rw [unpack_package_eq salt filename _ hsalt hfn]
  exact hdecB

/-- Witness for C4: secrets `AAAAAAAAAA` and `BBBBBBBBBB` over the all-zero
salt; the toy decryption rejects every key except the one derived from
`AAAAAAAAAA`. -/
theorem wrong_secret_rejected_witness :
    ("AAAAAAAAAA" : String) ≠ ("BBBBBBBBBB") ∧
    deriveKeyFromCode toyPbkdf2 ("BBBBBBBBBB") toySalt ≠
      deriveKeyFromCode toyPbkdf2 ("AAAAAAAAAA") toySalt ∧
    decryptArrayBuffer toyDec (deriveKeyFromCode toyPbkdf2 ("BBBBBBBBBB") toySalt)
      (encryptArrayBuffer toyEnc (deriveKeyFromCode toyPbkdf2 ("AAAAAAAAAA") toySalt)
        toyIv [1, 2]) = none ∧
    handleDownloadFromShare toyDec toyPbkdf2 ("BBBBBBBBBB")
      (packageEncrypted toySalt ("message.txt")
        (encryptArrayBuffer toyEnc (deriveKeyFromCode toyPbkdf2 ("AAAAAAAAAA") toySalt)
          toyIv [1, 2])) = DownloadResult.failure decryptFailedMsg := by
  have hauth : ∀ k : List Nat × List Nat,
      k ≠ deriveKeyFromCode toyPbkdf2 ("AAAAAAAAAA") toySalt →
      toyDec k toyIv (toyEnc (deriveKeyFromCode toyPbkdf2 ("AAAAAAAAAA") toySalt)
        toyIv [1, 2]) = none := by
    intro k hk
    simp only [toyDec]
    exact if_neg hk
  have h := wrong_secret_rejected toyEnc toyDec toyPbkdf2 ("AAAAAAAAAA") ("BBBBBBBBBB")
    toySalt toyIv ("message.txt") [1, 2] (by decide) (by decide) (by decide) (by decide)
    (by decide) (by decide) (by decide) hauth
  exact ⟨by decide, by decide, h.1, h.2⟩

/-- Claim C5: the transport selection is a pure function of the package
size with the fixed threshold `MAX_EMBED_BYTES = 96 * 1024 = 98304`: a
package exactly at the threshold is embedded, any package at least one byte
larger is rejected, and (for a valid 10-character code) the sender flow
produces `tooLarge` — no embedded link — exactly when the package exceeds
the threshold. -/
theorem transport_threshold :
    MAX_EMBED_BYTES = 98304 ∧
    decideTransport MAX_EMBED_BYTES = Transport.Embed ∧
    (∀ n : Nat, MAX_EMBED_BYTES < n → decideTransport n = Transport.TooLarge) ∧
    (∀ (K : Type) (enc : K → List Nat → List Nat → List Nat)
       (pbkdf2 : Pbkdf2Params → List Nat → List Nat → K)
       (code : String) (salt iv : List Nat) (filename : String) (plaintext : List Nat)
       (origin pathname : String), code.length = 10 →
       (handlePrepareAndGenerateLink enc pbkdf2 code salt iv filename plaintext origin pathname
           = PrepareResult.tooLarge ↔
         MAX_EMBED_BYTES <
           (packageEncrypted salt filename
             (encryptArrayBuffer enc (deriveKeyFromCode pbkdf2 code salt) iv
               plaintext)).length)) := by
  refine ⟨rfl, rfl, ?_, ?_⟩
  · intro n hn
    unfold decideTransport
    rw [if_pos hn]
  · intro K enc pbkdf2 code salt iv filename plaintext origin pathname hcode
    unfold handlePrepareAndGenerateLink
    dsimp only
    rw [if_neg (fun hne => hne hcode)]
    unfold decideTransport
    by_cases hlt : MAX_EMBED_BYTES <
        (packageEncrypted salt filename
          (encryptArrayBuffer enc (deriveKeyFromCode pbkdf2 code salt) iv plaintext)).length
    · rw [if_pos hlt]
      simp [hlt]
    · rw [if_neg hlt]
      simp [hlt]

/-- Witness for C5: the threshold value itself, a package one byte past it,
and a small concrete sender run that is embedded (both sides of the
equivalence false). -/
theorem transport_threshold_witness :
    MAX_EMBED_BYTES < 98305 ∧ decideTransport 98305 = Transport.TooLarge ∧
    ("AAAAAAAAAA").length = 10 ∧
    (handlePrepareAndGenerateLink toyEnc toyPbkdf2 ("AAAAAAAAAA") toySalt toyIv ("a") [7]
        ("https://x") ("/") = PrepareResult.tooLarge ↔
      MAX_EMBED_BYTES <
        (packageEncrypted toySalt ("a")
          (encryptArrayBuffer toyEnc (deriveKeyFromCode toyPbkdf2 ("AAAAAAAAAA") toySalt)
            toyIv [7])).length) :=
  ⟨by decide, transport_threshold.2.2.1 98305 (by decide), by decide,
    transport_threshold.2.2.2 _ toyEnc toyPbkdf2 ("AAAAAAAAAA") toySalt toyIv ("a") [7]
      ("https://x") ("/") (by decide)⟩

set_option maxRecDepth 4000 in
/-- Claim C6, counterexample: for the 256-byte filename `fn256` the sender
pipeline writes all 256 filename bytes into the package but stores
`256 % 256 = 0` in the single length byte (index 16), so the package does
not carry the claimed layout in which the FilenameLength byte equals the
filename's byte count N with N ≤ 255. -/
theorem package_layout_counterexample :
    (utf8Encode fn256).length = 256 ∧
    (packageEncrypted toySalt fn256 (List.replicate 12 0)).get? 16 = some 0 ∧
    (packageEncrypted toySalt fn256 (List.replicate 12 0)).length = 16 + 1 + 256 + 12 := by
  decide

/-- Claim C6 (amended): for every filename whose UTF-8 encoding has N ≤ 255
bytes, every package produced by the sender pipeline has the exact layout
Salt(16) ‖ FilenameLength(1) ‖ Filename(N) ‖ Nonce(12) ‖ Ciphertext+Tag with
the length byte equal to N, total length
16 + 1 + N + 12 + (plaintext + tag), hence at least 16 + 1 + 0 + 12 + tag.
For longer filenames the length byte holds N mod 256 instead (see the
counterexample and claim C9).  The fixed ciphertext expansion of the
platform AEAD is the hypothesis `hlen`. -/
theorem package_layout {K : Type}
    (enc : K → List Nat → List Nat → List Nat)
    (pbkdf2 : Pbkdf2Params → List Nat → List Nat → K)
    (code : String) (salt iv : List Nat) (filename : String) (plaintext : List Nat)
    (tagLen : Nat)
    (hsalt : salt.length = 16) (hiv : iv.length = 12)
    (hfn : (utf8Encode filename).length ≤ 255)
    (hlen : (enc (deriveKeyFromCode pbkdf2 code salt) iv plaintext).length
      = plaintext.length + tagLen) :
    packageEncrypted salt filename
        (encryptArrayBuffer enc (deriveKeyFromCode pbkdf2 code salt) iv plaintext) =
      salt ++ (utf8Encode filename).length :: (utf8Encode filename ++ iv ++
        enc (deriveKeyFromCode pbkdf2 code salt) iv plaintext) ∧
    (packageEncrypted salt filename
        (encryptArrayBuffer enc (deriveKeyFromCode pbkdf2 code salt) iv plaintext)).length =
      16 + 1 + (utf8Encode filename).length + 12 + (plaintext.length + tagLen) ∧
    16 + 1 + 0 + 12 + tagLen ≤
      (packageEncrypted salt filename
        (encryptArrayBuffer enc (deriveKeyFromCode pbkdf2 code salt) iv plaintext)).length := by
  have hmod : (utf8Encode filename).length % 256 = (utf8Encode filename).length :=
    Nat.mod_eq_of_lt (by omega)
  have h1 : packageEncrypted salt filename
      (encryptArrayBuffer enc (deriveKeyFromCode pbkdf2 code salt) iv plaintext) =
      salt ++ (utf8Encode filename).length :: (utf8Encode filename ++ iv ++
        enc (deriveKeyFromCode pbkdf2 code salt) iv plaintext) := by
    rw [packageEncrypted_eq _ _ _ hsalt, hmod, encryptArrayBuffer_eq]
    simp [List.append_assoc]
  have h2 : (packageEncrypted salt filename
      (encryptArrayBuffer enc (deriveKeyFromCode pbkdf2 code salt) iv plaintext)).length =
      16 + 1 + (utf8Encode filename).length + 12 + (plaintext.length + tagLen) := by
    rw [h1]
    simp [hsalt, hiv, hlen]
    omega
  exact ⟨h1, h2, by rw [h2]; omega⟩

/-- Witness for the amended C6 at a concrete instance: filename `a.txt`,
plaintext `[9]`, the toy AEAD with its 16-byte tag. -/
theorem package_layout_witness :
    toySalt.length = 16 ∧ toyIv.length = 12 ∧ (utf8Encode ("a.txt")).length ≤ 255 ∧
    (toyEnc (deriveKeyFromCode toyPbkdf2 ("AAAAAAAAAA") toySalt) toyIv [9]).length
      = ([9] : List Nat).length + 16 ∧
    (packageEncrypted toySalt ("a.txt")
        (encryptArrayBuffer toyEnc (deriveKeyFromCode toyPbkdf2 ("AAAAAAAAAA") toySalt)
          toyIv [9])).length =
      16 + 1 + (utf8Encode ("a.txt")).length + 12 + (([9] : List Nat).length + 16) :=
  ⟨by decide, by decide, by decide, by decide,
    (package_layout toyEnc toyPbkdf2 ("AAAAAAAAAA") toySalt toyIv ("a.txt") [9] 16
      (by decide) (by decide) (by decide) (by decide)).2.1⟩

/-- Claim C7: key derivation applies the platform's salted iterated
key-stretching function (PBKDF2) with the fixed parameters 200000
iterations, the fixed hash SHA-256 and a 256-bit key, to exactly the UTF-8
bytes of the secret and the salt; being a single application of that fixed
function to (secret, salt) it is deterministic — identical inputs yield the
identical key. -/
theorem derive_config_deterministic :
    deriveParams.iterations = 200000 ∧
    deriveParams.hash = ("SHA-256") ∧
    deriveParams.keyBits = 256 ∧
    (∀ (K : Type) (pbkdf2 : Pbkdf2Params → List Nat → List Nat → K) (code : String)
       (salt : List Nat),
       deriveKeyFromCode pbkdf2 code salt = pbkdf2 deriveParams (utf8Encode code) salt) :=
  ⟨rfl, rfl, rfl, fun _ _ _ _ => rfl⟩

/-- Claim C9: for every filename whose UTF-8 encoding has length L > 255
(packed with a 16-byte salt), `packageEncrypted` stores only `L mod 256` in
the single length byte while still writing all L filename bytes, so
`unpackageEncrypted` returns only the first `L mod 256` bytes as the
filename and treats the remaining filename bytes as the start of the
encrypted blob: the oversized filename is neither truncated to 255 bytes
nor rejected, and the round trip silently corrupts. -/
theorem oversized_filename_corrupts (salt : List Nat) (filename : String) (e : List Nat)
    (hsalt : salt.length = 16) (hfn : 255 < (utf8Encode filename).length) :
    packageEncrypted salt filename e =
      salt ++ ((utf8Encode filename).length % 256) :: (utf8Encode filename ++ e) ∧
    (packageEncrypted salt filename e).length =
      16 + 1 + (utf8Encode filename).length + e.length ∧
    unpackageEncrypted (packageEncrypted salt filename e) =
      (salt, (utf8Encode filename).take ((utf8Encode filename).length % 256),
        (utf8Encode filename).drop ((utf8Encode filename).length % 256) ++ e) ∧
    (utf8Encode filename).take ((utf8Encode filename).length % 256) ≠ utf8Encode filename := by
  have hpkg := packageEncrypted_eq salt filename e hsalt
  have h256 : (utf8Encode filename).length % 256 < 256 :=
    Nat.mod_lt _ (by omega)
  have hlt : (utf8Encode filename).length % 256 < (utf8Encode filename).length := by
    omega
  refine ⟨hpkg, ?_, ?_, ?_⟩
  · rw [hpkg]
    simp [hsalt]
    omega
  · rw [hpkg, unpackageEncrypted_salt_cons _ _ _ hsalt,
      take_append_le _ _ _ (le_of_lt hlt), drop_append_le _ _ _ (le_of_lt hlt)]
  · intro hcontra
    have hlen := congrArg List.length hcontra
    simp [List.length_take] at hlen
    omega

set_option maxRecDepth 4000 in
/-- Witness for C9: the 256-byte filename `fn256` with a 1-byte blob; the
length byte is 0, the recovered filename is empty, and the whole filename
leaks into the encrypted component. -/
theorem oversized_filename_corrupts_witness :
    toySalt.length = 16 ∧ 255 < (utf8Encode fn256).length ∧
    unpackageEncrypted (packageEncrypted toySalt fn256 [5]) =
      (toySalt, (utf8Encode fn256).take ((utf8Encode fn256).length % 256),
        (utf8Encode fn256).drop ((utf8Encode fn256).length % 256) ++ [5]) ∧
    (utf8Encode fn256).take ((utf8Encode fn256).length % 256) ≠ utf8Encode fn256 :=
  ⟨by decide, by decide,
    (oversized_filename_corrupts toySalt fn256 [5] (by decide) (by decide)).2.2.1,
    (oversized_filename_corrupts toySalt fn256 [5] (by decide) (by decide)).2.2.2⟩

/-- Claim C8: every fragment that does not start with the literal marker
`#share:` is ignored by the load-time detection (no payload is ever
extracted from it), and whenever the sender flow reports an embedded link,
the link text is exactly
`origin ++ pathname ++ "#share:" ++ base64(package)` — the marker
immediately followed by the base64 of the raw package bytes, with no
separators — and the reported size is the package length. -/
theorem share_link_form :
    (∀ frag : String, ("#share:").data.isPrefixOf frag.data = false →
      detectShareFragment frag = none) ∧
    (∀ (K : Type) (enc : K → List Nat → List Nat → List Nat)
       (pbkdf2 : Pbkdf2Params → List Nat → List Nat → K)
       (code : String) (salt iv : List Nat) (filename : String) (plaintext : List Nat)
       (origin pathname url : String) (size : Nat),
       handlePrepareAndGenerateLink enc pbkdf2 code salt iv filename plaintext origin pathname
         = PrepareResult.embedReady url size →
       url = origin ++ pathname ++ ("#share:") ++
         u8ToBase64 (packageEncrypted salt filename
           (encryptArrayBuffer enc (deriveKeyFromCode pbkdf2 code salt) iv plaintext)) ∧
       size = (packageEncrypted salt filename
         (encryptArrayBuffer enc (deriveKeyFromCode pbkdf2 code salt) iv
           plaintext)).length) := by
  constructor
  · intro frag hfrag
    unfold detectShareFragment
    rw [hfrag]
    simp
  · intro K enc pbkdf2 code salt iv filename plaintext origin pathname url size h
    unfold handlePrepareAndGenerateLink at h
    dsimp only at h
    by_cases hne : code.length ≠ 10
    · rw [if_pos hne] at h
      exact absurd h (by simp)
    · rw [if_neg hne] at h
      cases htr : decideTransport ((packageEncrypted salt filename
          (encryptArrayBuffer enc (deriveKeyFromCode pbkdf2 code salt) iv
            plaintext)).length) with
      | TooLarge =>
          rw [htr] at h
          exact absurd h (by simp)
      | Embed =>
          rw [htr] at h
          simp only [PrepareResult.embedReady.injEq] at h
          exact ⟨h.1.symm, h.2.symm⟩

/-- Witness for C8: a fragment with a different marker is ignored, and a
concrete sender run whose link is the literal URL with the `#share:` marker
followed by the base64 of the 47-byte package. -/
theorem share_link_form_witness :
    ("#share:").data.isPrefixOf ("#other:AA").data = false ∧
    detectShareFragment ("#other:AA") = none ∧
    handlePrepareAndGenerateLink toyEnc toyPbkdf2 ("AAAAAAAAAA") toySalt toyIv ("a") [7]
        ("https://x") ("/")
      = PrepareResult.embedReady
          ("https://x/#share:AAAAAAAAAAAAAAAAAAAAAAFhAAAAAAAAAAAAAAAABwAAAAAAAAAAAAAAAAAAAAA=")
          47 ∧
    ("https://x/#share:AAAAAAAAAAAAAAAAAAAAAAFhAAAAAAAAAAAAAAAABwAAAAAAAAAAAAAAAAAAAAA=")
      = ("https://x") ++ ("/") ++ ("#share:") ++
        u8ToBase64 (packageEncrypted toySalt ("a")
          (encryptArrayBuffer toyEnc (deriveKeyFromCode toyPbkdf2 ("AAAAAAAAAA") toySalt)
            toyIv [7])) :=
  ⟨by decide, share_link_form.1 ("#other:AA") (by decide), by decide,
    (share_link_form.2 _ toyEnc toyPbkdf2 ("AAAAAAAAAA") toySalt toyIv ("a") [7]
      ("https://x") ("/") _ 47 (by decide)).1⟩
